import Mathlib

/-!
Verification of the ESG sentiment-scorer pipeline against its
natural-language specification.

The definitions below are a shallow embedding of the Python sources:
* `src/nlp/sentiment_analyzer.py`   (`ESGScorer.calculate_esg_score`,
  `ESGSentimentAnalyzer._keyword_based_esg_classification`)
* `src/nlp/esg_classifier.py`       (`weak_label_esg`)
* `src/scraping/multilingual_scraper.py`
  (`MultilingualScraper.search_and_scrape_articles`, `translate_text`)
* `src/scraping/database_scraper.py` (`save_article_to_database`)
* `src/db/store_news_article.py`    (`store_news_article`)
* `config/settings.py`              (weights, `ESGCategories`)

Python `float` arithmetic is modelled over `ℚ`; Python strings are
modelled as `List Char`; code that can raise returns `Option`.
-/

/-! ### Basic string utilities (Python `str.lower`, `in`, `str.split`) -/

/-- Python `s.lower()` on a string, character by character (ASCII case). -/
def toLowerL (s : List Char) : List Char := s.map Char.toLower

/-- `leadsWith needle hay`: `needle` occurs at the very start of `hay`. -/
def leadsWith : List Char → List Char → Bool
  | [], _ => true
  | _ :: _, [] => false
  | c :: cs, d :: ds => c == d && leadsWith cs ds

/-- Python substring test `needle in hay`. -/
def containsSub (needle : List Char) : List Char → Bool
  | [] => needle.isEmpty
  | c :: rest => leadsWith needle (c :: rest) || containsSub needle rest

/-- Helper for `splitWs`: accumulates the current (reversed) word. -/
def splitWsAux : List Char → List Char → List (List Char)
  | [], cur => if cur.isEmpty then [] else [cur.reverse]
  | c :: rest, cur =>
    if c.isWhitespace then
      if cur.isEmpty then splitWsAux rest []
      else cur.reverse :: splitWsAux rest []
    else splitWsAux rest (c :: cur)

/-- Python `s.split()` with no argument: split on whitespace runs,
dropping empty fields. -/
def splitWs (s : List Char) : List (List Char) := splitWsAux s []

/-! ### Aggregator: `ESGScorer.calculate_esg_score`
(`src/nlp/sentiment_analyzer.py`, lines 337-379) -/

/-- One entry of the `sentiment_results` list passed to
`ESGScorer.calculate_esg_score`.  The Python `esg_scores` dict is read with
`result.esg_scores.get(category, 0.0)`, so a total three-field record (with
`0` standing for an absent key) is an exact model of every read the scorer
performs. -/
structure SentimentResult where
  confidence : ℚ
  environmental : ℚ
  social : ℚ
  governance : ℚ
deriving DecidableEq

/-- Output dict of `calculate_esg_score`. -/
structure ESGScoreOutput where
  environmental : ℚ
  social : ℚ
  governance : ℚ
  overall : ℚ
  confidence : ℚ
deriving DecidableEq

/-- `config/settings.py` line 45: `environmental_weight: float = 0.33`. -/
def environmental_weight : ℚ := 33 / 100

/-- `config/settings.py` line 46: `social_weight: float = 0.33`. -/
def social_weight : ℚ := 33 / 100

/-- `config/settings.py` line 47: `governance_weight: float = 0.34`. -/
def governance_weight : ℚ := 34 / 100

/-- The loop `total_confidence += weight` (also each `total_weights[category]
+= weight`: the three per-category totals all accumulate the same
`result.confidence`, so they coincide with this single sum). -/
def totalConfidence (rs : List SentimentResult) : ℚ :=
  (rs.map (fun r => r.confidence)).sum

/-- The loop `weighted_scores[category] += score * weight`. -/
def weightedScoreSum (f : SentimentResult → ℚ) (rs : List SentimentResult) : ℚ :=
  (rs.map (fun r => f r * r.confidence)).sum

/-- `final_scores[category]`: the weighted sum divided by the total weight
when the latter is positive, else `0.0`. -/
def finalScore (f : SentimentResult → ℚ) (rs : List SentimentResult) : ℚ :=
  if 0 < totalConfidence rs then weightedScoreSum f rs / totalConfidence rs else 0

/-- `ESGScorer.calculate_esg_score`: early-return of zeros on an empty list,
then confidence-weighted pillar averages, the weight-combined overall score,
and the mean confidence. -/
def calculate_esg_score (rs : List SentimentResult) : ESGScoreOutput :=
  match rs with
  | [] => { environmental := 0, social := 0, governance := 0, overall := 0, confidence := 0 }
  | _ :: _ =>
    let e := finalScore (fun r => r.environmental) rs
    let s := finalScore (fun r => r.social) rs
    let g := finalScore (fun r => r.governance) rs
    { environmental := e
      social := s
      governance := g
      overall := e * environmental_weight + s * social_weight + g * governance_weight
      confidence := totalConfidence rs / (rs.length : ℚ) }

/-- The spec's aggregation formula, written from the spec's words for
comparison with `calculate_esg_score`: sum only over results with
positive confidence, and return `0` when that confidence sum is `0`. -/
def specWeightedPillarScore (f : SentimentResult → ℚ) (rs : List SentimentResult) : ℚ :=
  let pos := rs.filter (fun r => 0 < r.confidence)
  let denom := (pos.map (fun r => r.confidence)).sum
  if denom = 0 then 0 else (pos.map (fun r => f r * r.confidence)).sum / denom

/-- Dropping zero-confidence results changes neither weight sum. -/
theorem sum_conf_filter_pos (rs : List SentimentResult)
    (h : ∀ r ∈ rs, 0 ≤ r.confidence) :
    ((rs.filter (fun r => 0 < r.confidence)).map (fun r => r.confidence)).sum
      = totalConfidence rs := by
  induction rs with
  | nil => simp [totalConfidence]
  | cons a t ih =>
    have ha : 0 ≤ a.confidence := h a (List.mem_cons_self a t)
    have ht : ∀ r ∈ t, 0 ≤ r.confidence := fun r hr => h r (List.mem_cons_of_mem a hr)
    rcases lt_or_eq_of_le ha with hpos | hzero
    · simp only [List.filter_cons, totalConfidence, List.map_cons, List.sum_cons]
      rw [if_pos (by exact decide_eq_true hpos)]
      simp only [List.map_cons, List.sum_cons]
      rw [ih ht]
      rfl
    · simp only [List.filter_cons, totalConfidence, List.map_cons, List.sum_cons]
      rw [if_neg (by simp [← hzero])]
      rw [ih ht]
      simp [totalConfidence, ← hzero]

/-- Dropping zero-confidence results changes no weighted score sum. -/
theorem sum_weighted_filter_pos (f : SentimentResult → ℚ) (rs : List SentimentResult)
    (h : ∀ r ∈ rs, 0 ≤ r.confidence) :
    ((rs.filter (fun r => 0 < r.confidence)).map (fun r => f r * r.confidence)).sum
      = weightedScoreSum f rs := by
  induction rs with
  | nil => simp [weightedScoreSum]
  | cons a t ih =>
    have ha : 0 ≤ a.confidence := h a (List.mem_cons_self a t)
    have ht : ∀ r ∈ t, 0 ≤ r.confidence := fun r hr => h r (List.mem_cons_of_mem a hr)
    rcases lt_or_eq_of_le ha with hpos | hzero
    · simp only [List.filter_cons, weightedScoreSum, List.map_cons, List.sum_cons]
      rw [if_pos (by exact decide_eq_true hpos)]
      simp only [List.map_cons, List.sum_cons]
      rw [ih ht]
      rfl
    · simp only [List.filter_cons, weightedScoreSum, List.map_cons, List.sum_cons]
      rw [if_neg (by simp [← hzero])]
      rw [ih ht]
      simp [weightedScoreSum, ← hzero]

/-- Each final pillar score of the code equals the spec's formula. -/
theorem finalScore_eq_spec (f : SentimentResult → ℚ) (rs : List SentimentResult)
    (h : ∀ r ∈ rs, 0 ≤ r.confidence) :
    finalScore f rs = specWeightedPillarScore f rs := by
  simp only [finalScore, specWeightedPillarScore]
  rw [sum_conf_filter_pos rs h, sum_weighted_filter_pos f rs h]
  by_cases hpos : 0 < totalConfidence rs
  · rw [if_pos hpos, if_neg (ne_of_gt hpos)]
  · have hnn : 0 ≤ totalConfidence rs := by
      unfold totalConfidence
      apply List.sum_nonneg
      intro x hx
      rcases List.mem_map.mp hx with ⟨r, hr, hrx⟩
      exact hrx ▸ h r hr
    have hz : totalConfidence rs = 0 := le_antisymm (not_lt.mp hpos) hnn
    rw [if_neg hpos, if_pos hz]

/-- The three-result scenario from the spec: environmental scores
`[0.8, 0.6, 0.0]` with confidences `[1.0, 1.0, 0.0]`. -/
def appleExampleResults : List SentimentResult :=
  [ { confidence := 1, environmental := 8 / 10, social := 0, governance := 0 },
    { confidence := 1, environmental := 6 / 10, social := 0, governance := 0 },
    { confidence := 0, environmental := 0, social := 0, governance := 0 } ]

/-- Claim C1: for every list of classification results with nonnegative
confidences, each aggregated pillar score of `calculate_esg_score` equals the
spec formula `Σ(score·confidence) / Σ(confidence)` restricted to results with
positive confidence, with `0` when that confidence sum is `0`. -/
theorem calculate_esg_score_matches_spec_formula (rs : List SentimentResult)
    (h : ∀ r ∈ rs, 0 ≤ r.confidence) :
    (calculate_esg_score rs).environmental
        = specWeightedPillarScore (fun r => r.environmental) rs ∧
    (calculate_esg_score rs).social
        = specWeightedPillarScore (fun r => r.social) rs ∧
    (calculate_esg_score rs).governance
        = specWeightedPillarScore (fun r => r.governance) rs := by
  match rs with
  | [] =>
    refine ⟨?_, ?_, ?_⟩ <;> rfl
  | a :: t =>
    refine ⟨?_, ?_, ?_⟩ <;>
      simpa [calculate_esg_score] using finalScore_eq_spec _ (a :: t) h

/-- Witness for C1 at the spec's concrete scenario: the confidences are
nonnegative and the aggregate environmental score is `0.70`. -/
theorem calculate_esg_score_matches_spec_formula_witness :
    (∀ r ∈ appleExampleResults, 0 ≤ r.confidence) ∧
    (calculate_esg_score appleExampleResults).environmental = 7 / 10 := by
  refine ⟨by decide, ?_⟩
  have h := calculate_esg_score_matches_spec_formula appleExampleResults (by decide)
  rw [h.1]
  norm_num [specWeightedPillarScore, appleExampleResults, List.filter]

/-- Claim C6: aggregating the empty list of classification results returns
zeroed pillar scores, a zero overall score and zero confidence (the Python
early-return branch), and raises no error. -/
theorem calculate_esg_score_nil :
    calculate_esg_score []
      = { environmental := 0, social := 0, governance := 0, overall := 0, confidence := 0 } :=
  rfl

/-- Claim C7: the configured pillar weights sum to `1.0` within `1e-9`, the
overall score is the weight-combination of the three pillar fields, and the
overall score lies in `[0, 1]` whenever the three pillar scores do. -/
theorem calculate_esg_score_overall_bounded (rs : List SentimentResult)
    (he : 0 ≤ (calculate_esg_score rs).environmental ∧ (calculate_esg_score rs).environmental ≤ 1)
    (hs : 0 ≤ (calculate_esg_score rs).social ∧ (calculate_esg_score rs).social ≤ 1)
    (hg : 0 ≤ (calculate_esg_score rs).governance ∧ (calculate_esg_score rs).governance ≤ 1) :
    |environmental_weight + social_weight + governance_weight - 1| ≤ 1 / 1000000000 ∧
    (calculate_esg_score rs).overall
      = (calculate_esg_score rs).environmental * environmental_weight
        + (calculate_esg_score rs).social * social_weight
        + (calculate_esg_score rs).governance * governance_weight ∧
    0 ≤ (calculate_esg_score rs).overall ∧ (calculate_esg_score rs).overall ≤ 1 := by
  have hid : (calculate_esg_score rs).overall
      = (calculate_esg_score rs).environmental * environmental_weight
        + (calculate_esg_score rs).social * social_weight
        + (calculate_esg_score rs).governance * governance_weight := by
    match rs with
    | [] => simp [calculate_esg_score]
    | a :: t => rfl
  refine ⟨by unfold environmental_weight social_weight governance_weight; norm_num, hid, ?_, ?_⟩
  · rw [hid]
    unfold environmental_weight social_weight governance_weight
    nlinarith [he.1, hs.1, hg.1]
  · rw [hid]
    unfold environmental_weight social_weight governance_weight
    nlinarith [he.2, hs.2, hg.2]

/-- Witness for C7 at the empty result list. -/
theorem calculate_esg_score_overall_bounded_witness :
    |environmental_weight + social_weight + governance_weight - 1| ≤ 1 / 1000000000 ∧
    0 ≤ (calculate_esg_score []).overall ∧ (calculate_esg_score []).overall ≤ 1 := by
  have h := calculate_esg_score_overall_bounded []
    (by decide) (by decide) (by decide)
  exact ⟨h.1, h.2.2⟩

/-! ### Translator: `MultilingualScraper.translate_text`
(`src/scraping/multilingual_scraper.py`, lines 143-159)

The translation provider (`GoogleTranslator(...).translate`) is abstracted as
a function from the mapped source-language code and the (truncated) text to
`Option (List Char)`, with `none` standing for a raised exception; the
`Option` around the whole provider models the `GoogleTranslator` import
being absent (`not GoogleTranslator`). -/

/-- `MAX_TRANSLATE_CHARS = 5000`. -/
def MAX_TRANSLATE_CHARS : Nat := 5000

/-- `lang_map = {"zh": "zh-CN"}; src_lang_mapped = lang_map.get(src_lang, src_lang)`. -/
def lang_map (srcLang : List Char) : List Char :=
  if srcLang = "zh".data then "zh-CN".data else srcLang

/-- `MultilingualScraper.translate_text`: return the text unchanged for
English source (or a missing provider); otherwise truncate to
`MAX_TRANSLATE_CHARS`, call the provider on the mapped language code, and on
provider failure return the truncated text instead of propagating. -/
def translate_text (provider : Option (List Char → List Char → Option (List Char)))
    (text srcLang : List Char) : List Char :=
  if srcLang = "en".data then text
  else
    match provider with
    | none => text
    | some tr =>
      let truncated := if MAX_TRANSLATE_CHARS < text.length
        then text.take MAX_TRANSLATE_CHARS else text
      match tr (lang_map srcLang) truncated with
      | some translated => translated
      | none => truncated

/-- Claim C8: translating with source language `"en"` is the identity, for
every provider and every input text. -/
theorem translate_text_en_identity
    (provider : Option (List Char → List Char → Option (List Char)))
    (text : List Char) :
    translate_text provider text "en".data = text := by
  simp [translate_text]

/-- Claim C4, counterexample: with a provider that always fails and a
5001-character non-English input, `translate_text` does not return the
original input text (it returns the 5000-character truncation). -/
theorem translate_text_failure_not_original :
    translate_text (some (fun _ _ => none)) (List.replicate 5001 'a') "fr".data
      ≠ List.replicate 5001 'a' := by
  intro h
  have hlen := congrArg List.length h
  have hred : translate_text (some (fun _ _ => none)) (List.replicate 5001 'a') "fr".data
      = (List.replicate 5001 'a').take MAX_TRANSLATE_CHARS := by
    unfold translate_text
    rw [if_neg (by decide)]
    simp only []
    rw [List.length_replicate, if_pos (by norm_num [MAX_TRANSLATE_CHARS])]
  rw [hred, List.length_take, List.length_replicate] at hlen
  unfold MAX_TRANSLATE_CHARS at hlen
  omega

/-- Claim C4 as amended: when the source language differs from English and
the provider call fails, `translate_text` returns the input truncated to
`MAX_TRANSLATE_CHARS` characters without propagating the error; in
particular it returns the original input unchanged whenever the input is at
most `MAX_TRANSLATE_CHARS` characters long. -/
theorem translate_text_failure_returns_truncated_input
    (tr : List Char → List Char → Option (List Char)) (text srcLang : List Char)
    (hlang : srcLang ≠ "en".data)
    (hfail : tr (lang_map srcLang)
        (if MAX_TRANSLATE_CHARS < text.length
         then text.take MAX_TRANSLATE_CHARS else text) = none) :
    translate_text (some tr) text srcLang
      = (if MAX_TRANSLATE_CHARS < text.length
         then text.take MAX_TRANSLATE_CHARS else text) ∧
    (text.length ≤ MAX_TRANSLATE_CHARS → translate_text (some tr) text srcLang = text) := by
  have hmain : translate_text (some tr) text srcLang
      = (if MAX_TRANSLATE_CHARS < text.length
         then text.take MAX_TRANSLATE_CHARS else text) := by
    unfold translate_text
    rw [if_neg hlang]
    simp only []
    rw [hfail]
  refine ⟨hmain, fun hshort => ?_⟩
  rw [hmain, if_neg (not_lt.mpr hshort)]

/-- Witness for the amended C4: a failing provider on a short French text
returns the text itself. -/
theorem translate_text_failure_returns_truncated_input_witness :
    ("fr".data ≠ "en".data) ∧
    translate_text (some (fun _ _ => none)) "bonjour".data "fr".data = "bonjour".data := by
  refine ⟨by decide, ?_⟩
  exact (translate_text_failure_returns_truncated_input
      (fun _ _ => none) "bonjour".data "fr".data (by decide) rfl).2 (by decide)

/-! ### Article storage
`DatabaseIntegratedScraper.save_article_to_database`
(`src/scraping/database_scraper.py`, lines 68-108) and
`store_news_article` (`src/db/store_news_article.py`, lines 8-43).

The `news_articles` table is modelled as a list of rows in insertion order;
`uuid.uuid4()` is modelled by a caller-supplied fresh id. -/

/-- The fields of a scraped `NewsArticle` that `save_article_to_database`
reads (`published_date`/`scraped_date` are modelled as optional stamps). -/
structure NewsArticleData where
  title : List Char
  content : List Char
  url : List Char
  source : List Char
  language : List Char
deriving DecidableEq

/-- A row of the `news_articles` table as inserted by
`save_article_to_database`. -/
structure NewsArticleRow where
  id : Nat
  title : List Char
  content : List Char
  url : List Char
  source : List Char
  language : List Char
  word_count : Nat
  company_id : Nat
deriving DecidableEq

/-- `save_article_to_database`: look the URL up first
(`SELECT id FROM news_articles WHERE url = :url`); if a row exists return
its id with the table unchanged, otherwise insert a fresh row (with
`word_count = len(article.content.split())`) and return the fresh id. -/
def save_article_to_database (db : List NewsArticleRow) (freshId : Nat)
    (article : NewsArticleData) (companyId : Nat) : Nat × List NewsArticleRow :=
  match db.find? (fun row => row.url == article.url) with
  | some row => (row.id, db)
  | none =>
    (freshId,
     db ++ [{ id := freshId
              title := article.title
              content := article.content
              url := article.url
              source := article.source
              language := article.language
              word_count := (splitWs article.content).length
              company_id := companyId }])

/-- A row of the `companies` table, as read by `get_company_by_name`. -/
structure CompanyRow where
  id : Nat
  name : List Char
deriving DecidableEq

/-- The article dict produced by the multilingual scraper and consumed by
`store_news_article` (`company`, `title`, `raw_text`, `url`, `source`,
`language` keys). -/
structure ArticleDict where
  company : List Char
  title : List Char
  raw_text : List Char
  url : List Char
  source : List Char
  language : List Char
deriving DecidableEq

/-- `get_company_by_name(session, name)`: case-insensitive lookup of a
company by name. -/
def get_company_by_name (companies : List CompanyRow) (name : List Char) :
    Option CompanyRow :=
  companies.find? (fun c => toLowerL c.name == toLowerL name)

/-- A row of the `NewsArticle` ORM table as inserted by
`store_news_article` (fields the function sets from the article dict). -/
structure StoredNewsArticle where
  title : List Char
  content : List Char
  url : List Char
  source : List Char
  language : List Char
  word_count : Nat
  is_analyzed : Bool
  company_id : Nat
deriving DecidableEq

/-- `store_news_article`: skip when the company is unknown; skip the insert
when a row with the same URL already exists; otherwise append the new row. -/
def store_news_article (companies : List CompanyRow)
    (db : List StoredNewsArticle) (article : ArticleDict) : List StoredNewsArticle :=
  match get_company_by_name companies article.company with
  | none => db
  | some company =>
    match db.find? (fun row => row.url == article.url) with
    | some _ => db
    | none =>
      db ++ [{ title := article.title
               content := article.raw_text
               url := article.url
               source := article.source
               language := article.language
               word_count := (splitWs article.raw_text).length
               is_analyzed := false
               company_id := company.id }]

/-- Claim C2: article storage is idempotent on URL.  If the table already
holds a row with the article's URL, `save_article_to_database` returns that
row's id and leaves the table unchanged, and `store_news_article` skips the
insert and leaves the table unchanged. -/
theorem article_storage_idempotent_on_url :
    (∀ (db : List NewsArticleRow) (freshId : Nat) (article : NewsArticleData)
       (companyId : Nat) (row : NewsArticleRow),
       db.find? (fun r => r.url == article.url) = some row →
       save_article_to_database db freshId article companyId = (row.id, db)) ∧
    (∀ (companies : List CompanyRow) (db : List StoredNewsArticle) (article : ArticleDict)
       (row : StoredNewsArticle),
       db.find? (fun r => r.url == article.url) = some row →
       store_news_article companies db article = db) := by
  constructor
  · intro db freshId article companyId row hfind
    unfold save_article_to_database
    rw [hfind]
  · intro companies db article row hfind
    unfold store_news_article
    match get_company_by_name companies article.company with
    | none => rfl
    | some company => rw [hfind]

/-- The existing row used in the C2 witness. -/
def c2WitnessRow : NewsArticleRow :=
  { id := 3, title := "t".data, content := "c".data, url := "http://x".data,
    source := "s".data, language := "en".data, word_count := 1, company_id := 0 }

/-- The incoming duplicate article used in the C2 witness. -/
def c2WitnessArticle : NewsArticleData :=
  { title := "t2".data, content := "c2".data, url := "http://x".data,
    source := "s".data, language := "en".data }

/-- Witness for C2 on a one-row table already holding the URL. -/
theorem article_storage_idempotent_on_url_witness :
    ([c2WitnessRow].find? (fun r => r.url == c2WitnessArticle.url) = some c2WitnessRow) ∧
    save_article_to_database [c2WitnessRow] 7 c2WitnessArticle 0 = (3, [c2WitnessRow]) :=
  ⟨by decide,
   article_storage_idempotent_on_url.1 [c2WitnessRow] 7 c2WitnessArticle 0 c2WitnessRow
     (by decide)⟩

/-! ### Scraper pipeline: `MultilingualScraper.search_and_scrape_articles`
(`src/scraping/multilingual_scraper.py`, lines 24-119)

Network fetching and HTML parsing are abstracted: each source carries the
outcome of fetching its listing page (`fetchOk`) and the article pages
reached through its matched links, already parsed (`pages`, in listing
order, truncated later by `max_articles`; a `none` entry is a link whose
`fetch_article` returned `None`).  A page's `pubDate` is the result of the
two ISO-date extraction attempts: `none` when no date was found or
`datetime.fromisoformat` raised.  Timestamps are integers;
`cutoff_date = now - days_back`. -/

/-- A fetched and parsed article page. -/
structure PageData where
  title : Option (List Char)
  pubDate : Option Int
  url : List Char
  rawText : List Char
deriving DecidableEq

/-- One configured source together with its fetch outcomes. -/
structure SourceData where
  name : List Char
  language : List Char
  hasBaseUrl : Bool
  fetchOk : Bool
  pages : List (Option PageData)
deriving DecidableEq

/-- One entry of the `results` list built by `search_and_scrape_articles`. -/
structure ScrapedArticle where
  company : List Char
  source : List Char
  language : List Char
  title : Option (List Char)
  rawText : List Char
  translatedText : List Char
  url : List Char
  publishedDate : Option Int
deriving DecidableEq

/-- The dict appended to `results` for one scraped page (lines 106-115). -/
def mkScrapedArticle (companyName : List Char)
    (provider : Option (List Char → List Char → Option (List Char)))
    (src : SourceData) (p : PageData) : ScrapedArticle :=
  { company := companyName
    source := src.name
    language := src.language
    title := p.title
    rawText := p.rawText
    translatedText := translate_text provider p.rawText src.language
    url := p.url
    publishedDate := p.pubDate }

/-- The per-link body of the loop (lines 74-115): skip links whose article
fetch failed, skip pages whose parsed date is strictly before the cutoff
(`if pub_date and pub_date < cutoff_date: continue`), and otherwise build
the result record. -/
def processPage (companyName : List Char)
    (provider : Option (List Char → List Char → Option (List Char)))
    (cutoff : Int) (src : SourceData) (op : Option PageData) : Option ScrapedArticle :=
  match op with
  | none => none
  | some p =>
    match p.pubDate with
    | some d =>
      if d < cutoff then none
      else some (mkScrapedArticle companyName provider src p)
    | none => some (mkScrapedArticle companyName provider src p)

/-- The per-source body of the loop (lines 45-115): skip sources whose
language is unsupported (`if lang not in self.supported_languages`), sources
without a `base_url`, and sources whose listing fetch failed; then process
the first `max_articles` matched links (`links = links[:max_articles]`). -/
def sourceArticles (supported : List (List Char)) (companyName : List Char)
    (provider : Option (List Char → List Char → Option (List Char)))
    (maxArticles : Nat) (cutoff : Int) (src : SourceData) : List ScrapedArticle :=
  if supported.contains src.language then
    if src.hasBaseUrl then
      if src.fetchOk then
        (src.pages.take maxArticles).filterMap (processPage companyName provider cutoff src)
      else []
    else []
  else []

/-- `search_and_scrape_articles`: the concatenation of every source's
contribution, with `cutoff_date = now - days_back`. -/
def search_and_scrape_articles (supported : List (List Char)) (companyName : List Char)
    (provider : Option (List Char → List Char → Option (List Char)))
    (maxArticles : Nat) (now daysBack : Int) (sources : List SourceData) :
    List ScrapedArticle :=
  sources.flatMap
    (sourceArticles supported companyName provider maxArticles (now - daysBack))

/-- Inversion for `processPage`: a produced article comes from a fetched
page, equals its record, and was not filtered out by the cutoff. -/
theorem processPage_some_inv (companyName : List Char)
    (provider : Option (List Char → List Char → Option (List Char)))
    (cutoff : Int) (src : SourceData) (op : Option PageData) (a : ScrapedArticle)
    (h : processPage companyName provider cutoff src op = some a) :
    ∃ p : PageData, op = some p ∧ a = mkScrapedArticle companyName provider src p ∧
      ∀ d : Int, p.pubDate = some d → ¬ d < cutoff := by
  match op with
  | none => simp [processPage] at h
  | some p =>
    refine ⟨p, rfl, ?_⟩
    simp only [processPage] at h
    split at h
    · rename_i d hpd
      split at h
      · exact absurd h (by simp)
      · rename_i hnotlt
        refine ⟨(Option.some_inj.mp h).symm, fun d2 hd2 => ?_⟩
        rw [hpd] at hd2
        rw [← Option.some_inj.mp hd2]
        exact hnotlt
    · rename_i hpd
      refine ⟨(Option.some_inj.mp h).symm, fun d2 hd2 => ?_⟩
      rw [hpd] at hd2
      exact absurd hd2 (by simp)

/-- Inversion for `sourceArticles`: a produced article comes from a source
that passed the language, base-url and fetch checks. -/
theorem sourceArticles_mem_inv (supported : List (List Char)) (companyName : List Char)
    (provider : Option (List Char → List Char → Option (List Char)))
    (maxArticles : Nat) (cutoff : Int) (src : SourceData) (a : ScrapedArticle)
    (h : a ∈ sourceArticles supported companyName provider maxArticles cutoff src) :
    supported.contains src.language = true ∧
    ∃ op ∈ src.pages.take maxArticles,
      processPage companyName provider cutoff src op = some a := by
  unfold sourceArticles at h
  split at h
  · rename_i hlang
    split at h
    · split at h
      · exact ⟨hlang, List.mem_filterMap.mp h⟩
      · exact absurd h (by simp)
    · exact absurd h (by simp)
  · exact absurd h (by simp)

/-- Claim C3: the date filter of `search_and_scrape_articles` fails open.
No returned article carries a successfully parsed date strictly earlier
than `now - days_back`, and every fetched page without a parsed date
(among the first `max_articles` links of a processed source) appears in
the results. -/
theorem search_and_scrape_date_filter (supported : List (List Char))
    (companyName : List Char)
    (provider : Option (List Char → List Char → Option (List Char)))
    (maxArticles : Nat) (now daysBack : Int) (sources : List SourceData) :
    (∀ a ∈ search_and_scrape_articles supported companyName provider
        maxArticles now daysBack sources,
      ∀ d : Int, a.publishedDate = some d → ¬ d < now - daysBack) ∧
    (∀ src ∈ sources, supported.contains src.language = true →
      src.hasBaseUrl = true → src.fetchOk = true →
      ∀ p : PageData, some p ∈ src.pages.take maxArticles → p.pubDate = none →
        mkScrapedArticle companyName provider src p
          ∈ search_and_scrape_articles supported companyName provider
              maxArticles now daysBack sources) := by
  constructor
  · intro a ha d hd
    rcases List.mem_flatMap.mp ha with ⟨src, hsrc, hmem⟩
    rcases sourceArticles_mem_inv supported companyName provider maxArticles _ src a hmem
      with ⟨-, op, -, hproc⟩
    rcases processPage_some_inv companyName provider _ src op a hproc
      with ⟨p, -, hrec, hcut⟩
    rw [hrec] at hd
    exact hcut d hd
  · intro src hsrc hlang hbase hfetch p hp hpd
    apply List.mem_flatMap.mpr
    refine ⟨src, hsrc, ?_⟩
    unfold sourceArticles
    rw [hlang, hbase, hfetch]
    simp only [if_true]
    apply List.mem_filterMap.mpr
    refine ⟨some p, hp, ?_⟩
    simp only [processPage]
    rw [hpd]

/-- The page used by the C3 and C10 witnesses: fetched, undated. -/
def witnessPage : PageData :=
  { title := some "Acme expands".data, pubDate := none,
    url := "http://news/acme".data, rawText := "Acme expands".data }

/-- The single configured source used by the C3 and C10 witnesses:
supported language, reachable, one undated page. -/
def witnessSource : SourceData :=
  { name := "Example News".data, language := "en".data,
    hasBaseUrl := true, fetchOk := true, pages := [some witnessPage] }

/-- Witness for C3: the undated page of a processed source is returned. -/
theorem search_and_scrape_date_filter_witness :
    witnessSource ∈ [witnessSource] ∧
    mkScrapedArticle "Acme".data none witnessSource witnessPage
      ∈ search_and_scrape_articles ["en".data] "Acme".data none 5 1000 30 [witnessSource] := by
  refine ⟨List.mem_singleton.mpr rfl, ?_⟩
  exact (search_and_scrape_date_filter ["en".data] "Acme".data none 5 1000 30
      [witnessSource]).2 witnessSource (List.mem_singleton.mpr rfl)
    (by decide) (by decide) (by decide) witnessPage (by decide) (by decide)

/-- Claim C10: every article returned by `search_and_scrape_articles` has a
language in the scraper's supported list (sources with an unsupported
configured language are skipped entirely and contribute no articles). -/
theorem search_and_scrape_language_supported (supported : List (List Char))
    (companyName : List Char)
    (provider : Option (List Char → List Char → Option (List Char)))
    (maxArticles : Nat) (now daysBack : Int) (sources : List SourceData) :
    ∀ a ∈ search_and_scrape_articles supported companyName provider
        maxArticles now daysBack sources,
      supported.contains a.language = true := by
  intro a ha
  rcases List.mem_flatMap.mp ha with ⟨src, hsrc, hmem⟩
  rcases sourceArticles_mem_inv supported companyName provider maxArticles _ src a hmem
    with ⟨hlang, op, -, hproc⟩
  rcases processPage_some_inv companyName provider _ src op a hproc
    with ⟨p, -, hrec, -⟩
  rw [hrec]
  exact hlang

/-- Witness for C10: the article scraped in the witness scenario has a
supported language. -/
theorem search_and_scrape_language_supported_witness :
    (["en".data] : List (List Char)).contains
      (mkScrapedArticle "Acme".data none witnessSource witnessPage).language = true :=
  search_and_scrape_language_supported ["en".data] "Acme".data none 5 1000 30
    [witnessSource] (mkScrapedArticle "Acme".data none witnessSource witnessPage)
    (by decide)

/-! ### Link matching (`search_and_scrape_articles`, lines 62-71)

For each anchor `a` of the listing page the code first tests a
case-insensitive substring match of any of the company's `partial_names`
against the anchor text, then falls back to
`difflib.get_close_matches(company_name.lower(), [text], n=1, cutoff=0.65)`.
The CPython `difflib.SequenceMatcher` (with `isjunk=None` and both junk
sets empty, since `len(b) < 200` keeps autojunk inactive) is embedded
below; the recursions of `find_longest_match`'s extension loops and of
`get_matching_blocks` are written with an explicit fuel argument that is
always sufficient (each step strictly shrinks the ranges, which are bounded
by the string lengths). -/

/-- `difflib._calculate_ratio(matches, length)`. -/
def calcRatioQ (ms len2 : Nat) : ℚ :=
  if 0 < len2 then 2 * (ms : ℚ) / (len2 : ℚ) else 1

/-- The best match triple `(besti, bestj, bestsize)` of
`find_longest_match`. -/
structure FLMBest where
  besti : Nat
  bestj : Nat
  bestsize : Nat
deriving DecidableEq

/-- `b2j.get(a[i], nothing)` restricted to `blo <= j < bhi` (the inner
loop's `continue`/`break`), in ascending order as `b2j` stores it. -/
def b2jGet (a b : List Char) (i : Nat) (blo bhi : Nat) : List Nat :=
  (List.range bhi).filter (fun j => decide (blo ≤ j) && (b.get? j == a.get? i))

/-- One iteration of the outer `for i in range(alo, ahi)` loop of
`find_longest_match`: reads the previous row's `j2len`, builds `newj2len`,
and updates the best triple on `k > bestsize`. -/
def flmRow (a b : List Char) (blo bhi : Nat) (j2len : Nat → Nat)
    (best : FLMBest) (i : Nat) : (Nat → Nat) × FLMBest :=
  (b2jGet a b i blo bhi).foldl
    (fun st j =>
      let k := (if j = 0 then 0 else j2len (j - 1)) + 1
      let newj2len : Nat → Nat := fun x => if x = j then k else st.1 x
      if st.2.bestsize < k then (newj2len, ⟨i + 1 - k, j + 1 - k, k⟩)
      else (newj2len, st.2))
    ((fun _ => 0), best)

/-- The outer loop of `find_longest_match`, threading `j2len` and the best
triple through the rows. -/
def flmLoop (a b : List Char) (blo bhi : Nat) :
    List Nat → (Nat → Nat) → FLMBest → FLMBest
  | [], _, best => best
  | i :: rest, j2len, best =>
    let st := flmRow a b blo bhi j2len best i
    flmLoop a b blo bhi rest st.1 st.2

/-- The first `while` of `find_longest_match`: extend the block leftwards
over equal non-junk elements (the junk set is empty here, so `isbjunk` is
constantly false and the third `while` never fires). -/
def extendNonJunkLeft (a b : List Char) (alo blo : Nat) : Nat → FLMBest → FLMBest
  | 0, best => best
  | fuel + 1, best =>
    if decide (alo < best.besti) && decide (blo < best.bestj) &&
        (a.get? (best.besti - 1) == b.get? (best.bestj - 1)) then
      extendNonJunkLeft a b alo blo fuel ⟨best.besti - 1, best.bestj - 1, best.bestsize + 1⟩
    else best

/-- The second `while` of `find_longest_match`: extend the block rightwards
over equal non-junk elements (the fourth `while` never fires, as above). -/
def extendNonJunkRight (a b : List Char) (ahi bhi : Nat) : Nat → FLMBest → FLMBest
  | 0, best => best
  | fuel + 1, best =>
    if decide (best.besti + best.bestsize < ahi) &&
        decide (best.bestj + best.bestsize < bhi) &&
        (a.get? (best.besti + best.bestsize) == b.get? (best.bestj + best.bestsize)) then
      extendNonJunkRight a b ahi bhi fuel ⟨best.besti, best.bestj, best.bestsize + 1⟩
    else best

/-- `SequenceMatcher.find_longest_match(alo, ahi, blo, bhi)` with empty
junk sets. -/
def find_longest_match (a b : List Char) (alo ahi blo bhi : Nat) : FLMBest :=
  let best1 := flmLoop a b blo bhi ((List.range ahi).drop alo) (fun _ => 0) ⟨alo, blo, 0⟩
  let best2 := extendNonJunkLeft a b alo blo (a.length + b.length) best1
  extendNonJunkRight a b ahi bhi (a.length + b.length) best2

/-- The total size of `get_matching_blocks`: the queue recursion of
`difflib`, splitting the ranges around each longest match. -/
def matchingSize (a b : List Char) : Nat → Nat × Nat × Nat × Nat → Nat
  | 0, _ => 0
  | fuel + 1, (alo, ahi, blo, bhi) =>
    let m := find_longest_match a b alo ahi blo bhi
    if m.bestsize = 0 then 0
    else m.bestsize
      + (if alo < m.besti ∧ blo < m.bestj then
           matchingSize a b fuel (alo, m.besti, blo, m.bestj) else 0)
      + (if m.besti + m.bestsize < ahi ∧ m.bestj + m.bestsize < bhi then
           matchingSize a b fuel (m.besti + m.bestsize, ahi, m.bestj + m.bestsize, bhi) else 0)

/-- `SequenceMatcher.ratio()` for `a = seq1`, `b = seq2`. -/
def ratioQ (a b : List Char) : ℚ :=
  calcRatioQ (matchingSize a b (a.length + b.length + 1) (0, a.length, 0, b.length))
    (a.length + b.length)

/-- `b.count` as a function (`fullbcount`). -/
def fullbcount (b : List Char) (c : Char) : Nat := (b.filter (fun d => d == c)).length

/-- The `for elt in self.a` loop of `quick_ratio`, threading the `avail`
dict. -/
def quickMatchesLoop (bcount : Char → Nat) : List Char → (Char → Option Int) → Nat → Nat
  | [], _, ms => ms
  | c :: rest, avail, ms =>
    let numb : Int := match avail c with
      | some n => n
      | none => (bcount c : Int)
    quickMatchesLoop bcount rest (fun x => if x = c then some (numb - 1) else avail x)
      (if 0 < numb then ms + 1 else ms)

/-- `SequenceMatcher.quick_ratio()`. -/
def quick_ratioQ (a b : List Char) : ℚ :=
  calcRatioQ (quickMatchesLoop (fullbcount b) a (fun _ => none) 0) (a.length + b.length)

/-- `SequenceMatcher.real_quick_ratio()`. -/
def real_quick_ratioQ (a b : List Char) : ℚ :=
  calcRatioQ (min a.length b.length) (a.length + b.length)

/-- `difflib.get_close_matches(word, [x], n=1, cutoff)` returns a non-empty
list exactly when the single possibility passes the three chained ratio
guards (evaluated left to right with Python's short-circuit `and`). -/
def close_match_accept (x word : List Char) (cutoff : ℚ) : Bool :=
  decide (cutoff ≤ real_quick_ratioQ x word) &&
    (decide (cutoff ≤ quick_ratioQ x word) && decide (cutoff ≤ ratioQ x word))

/-- The `partial_names` set of `search_and_scrape_articles` (lines 32-41):
first and last word of the company name when it has several words, the full
name, and the ticker when present. -/
def nameVariants (companyName : List Char) (ticker : Option (List Char)) :
    List (List Char) :=
  let words := splitWs companyName
  (if 1 < words.length then [words.headD [], words.getLastD []] else [])
    ++ [companyName]
    ++ (match ticker with | some t => [t] | none => [])

/-- The per-anchor link-collection decision (lines 62-71): lower-case the
anchor text, test `pn.lower() in text` for each partial name, and fall back
to the fuzzy `get_close_matches` test at cutoff `0.65`. -/
def link_text_matches (companyName : List Char) (ticker : Option (List Char))
    (anchorText : List Char) : Bool :=
  let text := toLowerL anchorText
  if (nameVariants companyName ticker).any (fun pn => containsSub (toLowerL pn) text)
  then true
  else close_match_accept text (toLowerL companyName) (65 / 100)

/-- Claim C9: under the link-matching policy with fuzzy cutoff `0.65`, the
anchor text `"Apple Reports Record Q3 Revenue"` is matched for company
`"Apple Inc."` (so its link is collected) and
`"Local Weather Forecast Tuesday"` is not. -/
theorem apple_anchor_link_matching :
    link_text_matches "Apple Inc.".data none "Apple Reports Record Q3 Revenue".data = true ∧
    link_text_matches "Apple Inc.".data none "Local Weather Forecast Tuesday".data = false := by
  constructor
  · decide
  · have hpart : (nameVariants "Apple Inc.".data none).any
        (fun pn => containsSub (toLowerL pn) (toLowerL "Local Weather Forecast Tuesday".data))
        = false := by decide
    have h30 : (toLowerL "Local Weather Forecast Tuesday".data).length = 30 := rfl
    have h10 : (toLowerL "Apple Inc.".data).length = 10 := rfl
    have hmin : min (30 : Nat) 10 = 10 := rfl
    have hrq : real_quick_ratioQ (toLowerL "Local Weather Forecast Tuesday".data)
        (toLowerL "Apple Inc.".data) = 1 / 2 := by
      unfold real_quick_ratioQ calcRatioQ
      rw [h30, h10, hmin]
      norm_num
    have hguard : decide ((65 : ℚ) / 100
        ≤ real_quick_ratioQ (toLowerL "Local Weather Forecast Tuesday".data)
            (toLowerL "Apple Inc.".data)) = false := by
      rw [hrq]
      exact decide_eq_false (by norm_num)
    simp only [link_text_matches]
    rw [hpart]
    simp only [Bool.false_eq_true, if_false]
    unfold close_match_accept
    rw [hguard, Bool.false_and]

/-! ### Keyword-based ESG classification
`ESGSentimentAnalyzer._keyword_based_esg_classification`
(`src/nlp/sentiment_analyzer.py`, lines 238-253), `weak_label_esg`
(`src/nlp/esg_classifier.py`, lines 80-91) and the `ESGCategories`
taxonomy (`config/settings.py`, lines 73-125). -/

/-- One pillar entry of `ESGCategories`: the `'name'` value and the
`'sub_factors'` dict as an association list of sub-factor name and keyword
list. -/
structure ESGCategory where
  name : List Char
  sub_factors : List (List Char × List (List Char))

/-- `ESGCategories.ENVIRONMENTAL`. -/
def ENVIRONMENTAL : ESGCategory :=
  { name := "Environmental".data
    sub_factors :=
      [ ("carbon_emissions".data,
         ["carbon emissions".data, "carbon footprint".data, "CO2".data,
          "greenhouse gas".data, "emissions reduction".data]),
        ("renewable_energy".data,
         ["renewable energy".data, "solar".data, "wind".data, "hydro".data,
          "clean energy".data, "green technology".data]),
        ("pollution".data,
         ["pollution".data, "air quality".data, "water pollution".data,
          "soil contamination".data, "waste".data, "toxic".data]),
        ("waste_management".data,
         ["waste management".data, "recycling".data, "circular economy".data,
          "landfill".data, "waste reduction".data]),
        ("water_usage".data,
         ["water usage".data, "water conservation".data, "water efficiency".data,
          "drought".data, "water scarcity".data]),
        ("biodiversity".data,
         ["biodiversity".data, "ecosystem".data, "habitat".data,
          "species protection".data, "deforestation".data]),
        ("compliance".data,
         ["environmental compliance".data, "regulation".data, "ESG reporting".data,
          "environmental law".data]) ] }

/-- `ESGCategories.SOCIAL`. -/
def SOCIAL : ESGCategory :=
  { name := "Social".data
    sub_factors :=
      [ ("labor_practices".data,
         ["labor practices".data, "fair wages".data, "working conditions".data,
          "collective bargaining".data, "child labor".data]),
        ("human_rights".data,
         ["human rights".data, "forced labor".data, "discrimination".data,
          "freedom of association".data, "civil rights".data]),
        ("diversity_inclusion".data,
         ["diversity".data, "inclusion".data, "gender equality".data,
          "minority representation".data, "equal opportunity".data]),
        ("community_relations".data,
         ["community relations".data, "philanthropy".data, "volunteering".data,
          "local impact".data, "stakeholder engagement".data]),
        ("product_safety".data,
         ["product safety".data, "quality control".data, "recall".data,
          "customer safety".data]),
        ("data_privacy".data,
         ["customer privacy".data, "data privacy".data, "GDPR".data,
          "data breach".data, "privacy policy".data]),
        ("supply_chain".data,
         ["supply chain".data, "supplier standards".data,
          "responsible sourcing".data, "traceability".data]),
        ("workplace_safety".data,
         ["workplace safety".data, "occupational health".data, "injury".data,
          "safety training".data]),
        ("social_responsibility".data,
         ["social responsibility".data, "social impact".data,
          "community investment".data]) ] }

/-- `ESGCategories.GOVERNANCE`. -/
def GOVERNANCE : ESGCategory :=
  { name := "Governance".data
    sub_factors :=
      [ ("board_independence".data,
         ["board independence".data, "board diversity".data, "board structure".data,
          "independent directors".data]),
        ("executive_compensation".data,
         ["executive compensation".data, "CEO pay".data, "pay ratio".data,
          "bonus".data, "incentive".data]),
        ("shareholder_rights".data,
         ["shareholder rights".data, "proxy".data, "voting".data,
          "shareholder engagement".data]),
        ("anti_corruption".data,
         ["anti-corruption".data, "bribery".data, "fraud".data,
          "whistleblower".data, "ethics".data]),
        ("transparency".data,
         ["transparency".data, "disclosure".data, "reporting".data, "audit".data,
          "accountability".data]),
        ("risk_management".data,
         ["risk management".data, "internal controls".data, "compliance".data,
          "regulatory risk".data]),
        ("corporate_governance".data,
         ["corporate governance".data, "governance framework".data,
          "governance policy".data]) ] }

/-- `category_config.get('keywords', [])` in
`_keyword_based_esg_classification`: the `ESGCategories` pillar dicts carry
only the keys `'name'` and `'sub_factors'`, so the lookup of the absent key
`'keywords'` always yields the default `[]`, whatever the category. -/
def categoryGetKeywords (_cfg : ESGCategory) : List (List Char) := []

/-- The per-category body of `_keyword_based_esg_classification`: count the
keywords contained in the lower-cased text, then (for non-empty text) set
`min(matches / len(keywords) * 2, 1.0)`.  With `keywords = []` the division
is `0 / 0`, a Python `ZeroDivisionError`, modelled as `none`. -/
def categoryScoreOpt (textLower : List Char) (cfg : ESGCategory) : Option ℚ :=
  let keywords := categoryGetKeywords cfg
  let ms := (keywords.filter (fun kw => containsSub (toLowerL kw) textLower)).length
  if 0 < textLower.length then
    if keywords.length = 0 then none
    else some (min ((ms : ℚ) / (keywords.length : ℚ) * 2) 1)
  else some 0

/-- The three pillar scores returned by the keyword classifier. -/
structure PillarScores where
  environmental : ℚ
  social : ℚ
  governance : ℚ
deriving DecidableEq

/-- `_keyword_based_esg_classification`: lower-case the text and score the
three pillars in dict order; any raised `ZeroDivisionError` aborts the
whole call (`none`). -/
def keyword_based_esg_classification (text : List Char) : Option PillarScores :=
  let tl := toLowerL text
  match categoryScoreOpt tl ENVIRONMENTAL, categoryScoreOpt tl SOCIAL,
      categoryScoreOpt tl GOVERNANCE with
  | some e, some s, some g => some { environmental := e, social := s, governance := g }
  | _, _, _ => none

/-- `ESG_KEYWORDS["environment"]` (`src/nlp/esg_classifier.py`, line 75). -/
def envKeywords : List (List Char) :=
  ["climate".data, "carbon".data, "emissions".data, "renewable".data,
   "sustainability".data, "pollution".data, "energy".data, "waste".data,
   "biodiversity".data]

/-- `ESG_KEYWORDS["social"]` (line 76). -/
def socKeywords : List (List Char) :=
  ["diversity".data, "inclusion".data, "labor".data, "community".data,
   "human rights".data, "safety".data, "health".data, "education".data,
   "equality".data]

/-- `ESG_KEYWORDS["governance"]` (line 77). -/
def govKeywords : List (List Char) :=
  ["board".data, "audit".data, "compliance".data, "ethics".data,
   "transparency".data, "shareholder".data, "risk".data, "regulation".data,
   "leadership".data]

/-- The text actually matched by the pattern
`rf"\\b{re.escape(kw)}\\b"` of `weak_label_esg`.  Inside an `rf`-string
`"\\b"` is the two characters backslash-`b`, which the regex engine reads
as an escaped literal backslash followed by a literal `b`; `re.escape`
leaves these all-letters-and-spaces keywords unchanged.  So `re.search`
looks for the literal text `\bkw\b` (with real backslash characters). -/
def weakLabelNeedle (kw : List Char) : List Char :=
  '\\' :: 'b' :: (kw ++ ['\\', 'b'])

/-- The labels dict returned by `weak_label_esg`. -/
structure WeakLabels where
  environment : Nat
  social : Nat
  governance : Nat
deriving DecidableEq

/-- `weak_label_esg`: lower-case the text and set a topic's label to 1 when
some keyword's (broken) word-boundary pattern matches. -/
def weak_label_esg (text : List Char) : WeakLabels :=
  let tl := toLowerL text
  let label := fun (kws : List (List Char)) =>
    if kws.any (fun kw => containsSub (weakLabelNeedle kw) tl) then 1 else 0
  { environment := label envKeywords
    social := label socKeywords
    governance := label govKeywords }

/-- Claim C5, code behaviour at the failing input: on the non-empty text
`"carbon emissions"` (which matches the `carbon_emissions` sub-factor, so
the claim's formula would give a positive environmental score)
`_keyword_based_esg_classification` raises `ZeroDivisionError` (`none`) —
it looks up the absent `'keywords'` key and divides by the length of the
default `[]` — and `weak_label_esg` returns all-zero labels even on the
keyword-laden text `"climate carbon emissions"`, because its pattern only
matches literal backslash-`b` characters. -/
theorem keyword_classification_broken :
    keyword_based_esg_classification "carbon emissions".data = none ∧
    weak_label_esg "climate carbon emissions".data
      = { environment := 0, social := 0, governance := 0 } := by
  exact ⟨rfl, rfl⟩
